import Mathlib

/-!
Verification development for the PentAGI repository.

Covered units:
* the bounded Sploitus search-result formatter (`formatSploitusResults`) —
  the implementation is absent from the reviewed sources (only its unit
  tests are present), so the formatter below is modelled from the
  specification, with the literal strings taken from the expectations of
  the unit tests;
* the favorite-flows JSONB upsert (`AddFavoriteFlow` SQL query);
* the privilege gates of the flow service handlers (`flows.go`).
-/

namespace Pentagi

/-! ### String helpers: byte length and append lemmas -/

/-- UTF-8 byte length of a string, the Lean counterpart of Go's `len(s)`. -/
def utf8Len (s : String) : Nat := (s.data.map Char.utf8Size).sum

theorem sEq_of_data {a b : String} (h : a.data = b.data) : a = b := by
  cases a; cases b; exact congrArg String.mk h

theorem sData_append (a b : String) : (a ++ b).data = a.data ++ b.data := by
  cases a; cases b; rfl

theorem sAppend_assoc (a b c : String) : a ++ b ++ c = a ++ (b ++ c) :=
  sEq_of_data (by simp [sData_append])

theorem sAppend_nil (a : String) : a ++ "" = a :=
  sEq_of_data (by rw [sData_append]; exact List.append_nil _)

theorem sNil_append (a : String) : "" ++ a = a :=
  sEq_of_data (by rw [sData_append]; exact List.nil_append _)

theorem utf8Len_append (a b : String) : utf8Len (a ++ b) = utf8Len a + utf8Len b := by
  simp [utf8Len, sData_append]

theorem utf8Len_replicateA (n : Nat) :
    utf8Len (String.mk (List.replicate n 'A')) = n := by
  have hA : Char.utf8Size 'A' = 1 := rfl
  show ((List.replicate n 'A').map Char.utf8Size).sum = n
  simp [List.map_replicate, hA]

/-- Concatenation of a list of strings. -/
def concatAll : List String → String
  | [] => ""
  | s :: l => s ++ concatAll l

/-! ### Data model of the formatter

Modelled from the spec: the implementation of the Sploitus formatter is not
among the reviewed sources (only its tests are), so the data model follows
§3 of the specification.  The optional numeric `score` is a floating-point
value in the source; it is embedded as the exact rational value it denotes
(every finite float is a rational with a power-of-two denominator), and the
formatter renders it with the natural-decimal printer `scoreRepr` below. -/

structure SearchResultItem where
  id : String
  title : String
  href : String
  kind : String
  score : Option Rat
  publishedDate : Option String
  language : Option String
  downloadUrl : Option String
  bodyText : Option String

inductive ResultCategory where
  | exploits : ResultCategory
  | tools : ResultCategory

structure SearchResultSet where
  items : List SearchResultItem
  totalMatches : Nat

/-! ### Constants and fixed strings -/

/-- Modelled from the spec: the fixed default item limit (`DEFAULT_LIMIT`),
named after the Go constant referenced by the tests. -/
def defaultSploitusLimit : Nat := 10

/-- Modelled from the spec: the per-item ceiling on `bodyText` (50 KiB). -/
def maxSourceSize : Nat := 50 * 1024

/-- Modelled from the spec: the total output ceiling (80 KiB). -/
def maxTotalSize : Nat := 80 * 1024

def categoryLabel : ResultCategory → String
  | .exploits => "exploits"
  | .tools => "tools"

/-- Modelled from the spec: the report header block (title, echoed query,
category label, upstream total), strings as expected by the unit tests. -/
def sploitusHeader (q : String) (cat : ResultCategory) (total : Nat) : String :=
  "# Sploitus Search Results\n\n**Query:** `" ++ q ++ "`\n**Type:** " ++
    categoryLabel cat ++ "\n**Total matches on Sploitus:** " ++ Nat.repr total ++ "\n\n"

/-- Modelled from the spec: the category-specific empty-result notice. -/
def noResultsNotice : ResultCategory → String
  | .exploits => "No exploits were found for this query.\n"
  | .tools => "No security tools were found for this query.\n"

/-- Modelled from the spec: the section header naming the category and the
effective limit. -/
def sectionLine (cat : ResultCategory) (eff : Nat) : String :=
  match cat with
  | .exploits => "## Exploits (showing up to " ++ Nat.repr eff ++ ")\n\n"
  | .tools => "## Security Tools (showing up to " ++ Nat.repr eff ++ ")\n\n"

/-- Modelled from the spec: the per-item truncation notice emitted in place
of an oversized `bodyText`. -/
def sourceNotice : String := "**Source:** source truncated, exceeded 50 KB limit\n"

/-- Modelled from the spec: the warning appended when the total ceiling
stops rendering early. -/
def truncationWarning : String := "\n**Note:** Results truncated due to the 80 KB output limit\n"

/-! ### Item rendering -/

def itemHeaderLine (idx : Nat) (title : String) : String :=
  "### " ++ Nat.repr (idx + 1) ++ ". " ++ title ++ "\n"

def urlLine (href : String) : String := "**URL:** " ++ href ++ "\n"

/-- Renders `label ++ value` when the optional value is present, nothing
otherwise. -/
def optLine (label : String) : Option String → String
  | none => ""
  | some v => label ++ v ++ "\n"

/-- Number of times `p` divides `n`, by repeated division (the fuel bounds
the recursion; `fuel = n` always suffices since each step divides by
`p ≥ 2`). -/
def factorCount (p : Nat) : Nat → Nat → Nat
  | 0, _ => 0
  | fuel + 1, n => if 2 ≤ p ∧ 0 < n ∧ n % p = 0 then factorCount p fuel (n / p) + 1 else 0

/-- The least number of fractional decimal digits needed for a reduced
denominator: the larger of the multiplicities of 2 and 5 in `den`. -/
def decExp (den : Nat) : Nat := max (factorCount 2 den den) (factorCount 5 den den)

/-- The `k` decimal digits of `m`, left-padded with zeros. -/
def fracDigits (k m : Nat) : String :=
  String.mk (List.replicate (k - (Nat.repr m).length) '0') ++ Nat.repr m

/-- Modelled from the spec: the natural decimal representation of a numeric
score — the shortest exact decimal form, with no forced fixed-point
rounding or trailing zeros (a value that is not a finite decimal falls back
to its exact fraction; finite floats never hit that branch). -/
def scoreRepr (q : Rat) : String :=
  let k := decExp q.den
  if 10 ^ k % q.den = 0 then
    let scaled : Int := q.num * Int.ofNat (10 ^ k / q.den)
    let sign := if scaled < 0 then "-" else ""
    let m := scaled.natAbs
    if k = 0 then sign ++ Nat.repr m
    else sign ++ Nat.repr (m / 10 ^ k) ++ "." ++ fracDigits k (m % 10 ^ k)
  else Int.repr q.num ++ "/" ++ Nat.repr q.den

/-- The score line of an item in exploits mode: omitted when the optional
score is absent, the natural decimal rendering when present. -/
def scoreLine : Option Rat → String
  | none => ""
  | some v => "**CVSS Score:** " ++ scoreRepr v ++ "\n"

/-- Modelled from the spec: the fixed field set of one item, depending on
the display category (§4.1 step 4b). -/
def fieldLines : ResultCategory → SearchResultItem → String
  | .exploits, it =>
      scoreLine it.score ++ ("**Type:** " ++ it.kind ++ "\n") ++
        optLine "**Published:** " it.publishedDate ++ optLine "**Language:** " it.language
  | .tools, it =>
      optLine "**Download:** " it.downloadUrl ++ ("**Source Type:** " ++ it.kind ++ "\n")

/-- The part of an item block that precedes the body section. -/
def itemLead (cat : ResultCategory) (idx : Nat) (it : SearchResultItem) : String :=
  itemHeaderLine idx it.title ++ urlLine it.href ++ fieldLines cat it

/-- Modelled from the spec: the body section of one item; an oversized body
is replaced by the fixed notice (§4.1 step 4c). -/
def bodySection : Option String → String
  | none => ""
  | some src =>
      if utf8Len src > maxSourceSize then sourceNotice
      else "**Source:**\n```\n" ++ src ++ "\n```\n"

/-- Modelled from the spec: one numbered item block (§4.1 step 4a-4c). -/
def renderItem (cat : ResultCategory) (idx : Nat) (it : SearchResultItem) : String :=
  itemLead cat idx it ++ bodySection it.bodyText ++ "\n"

/-- The blocks of a list of items, numbered from `idx`. -/
def itemBlocks (cat : ResultCategory) : List SearchResultItem → Nat → List String
  | [], _ => []
  | it :: rest, idx => renderItem cat idx it :: itemBlocks cat rest (idx + 1)

/-! ### Effective limit and the rendering loop -/

/-- Modelled from the spec: effective limit resolution (§4.1 steps 1-4):
non-positive requests fall back to the default, then the result is clamped
to the number of available items. -/
def effectiveLimit (requested : Int) (n : Nat) : Nat :=
  min (if requested ≤ 0 then defaultSploitusLimit else requested.toNat) n

/-- Result of the rendering loop: accumulated output, number of item blocks
rendered, and whether the total ceiling stopped rendering early. -/
structure RenderState where
  out : String
  shown : Nat
  truncated : Bool

/-- Modelled from the spec: the main rendering loop (§4.1 steps 4-5).  Each
item block is appended whole; if the accumulated output then exceeds the
total ceiling, the block is discarded, the warning is appended and the loop
stops. -/
def renderLoop (cat : ResultCategory) :
    List SearchResultItem → Nat → Nat → String → RenderState
  | [], _, _, acc => ⟨acc, 0, false⟩
  | _ :: _, 0, _, acc => ⟨acc, 0, false⟩
  | it :: rest, n + 1, idx, acc =>
      if utf8Len (acc ++ renderItem cat idx it) > maxTotalSize then
        ⟨acc ++ truncationWarning, 0, true⟩
      else
        let st := renderLoop cat rest n (idx + 1) (acc ++ renderItem cat idx it)
        ⟨st.out, st.shown + 1, st.truncated⟩

/-- Modelled from the spec: the full formatter pipeline, returning the
output together with the rendered-item count and the truncation flag. -/
def sploitusRender (q : String) (cat : ResultCategory) (lim : Int)
    (resp : SearchResultSet) : RenderState :=
  match resp.items with
  | [] => ⟨sploitusHeader q cat resp.totalMatches ++ noResultsNotice cat, 0, false⟩
  | it :: rest =>
      renderLoop cat (it :: rest) (effectiveLimit lim (it :: rest).length) 0
        (sploitusHeader q cat resp.totalMatches ++
          sectionLine cat (effectiveLimit lim (it :: rest).length))

/-- Modelled from the spec: `formatSploitusResults`, the single entry point
of the bounded result formatter, matching the Go signature
`formatSploitusResults(query, exploitType, limit, response) string`. -/
def formatSploitusResults (q : String) (cat : ResultCategory) (lim : Int)
    (resp : SearchResultSet) : String :=
  (sploitusRender q cat lim resp).out

/-! ### Structural lemmas about the rendering loop -/

theorem renderLoop_spec (cat : ResultCategory) (items : List SearchResultItem) :
    ∀ (n idx : Nat) (acc : String),
      (renderLoop cat items n idx acc).shown ≤ min n items.length ∧
      (renderLoop cat items n idx acc).out =
        acc ++ concatAll (itemBlocks cat (items.take (renderLoop cat items n idx acc).shown) idx)
          ++ (if (renderLoop cat items n idx acc).truncated then truncationWarning else "") ∧
      ((renderLoop cat items n idx acc).truncated = false →
        (renderLoop cat items n idx acc).shown = min n items.length) ∧
      ((renderLoop cat items n idx acc).truncated = true →
        (renderLoop cat items n idx acc).shown < min n items.length) := by
  induction items with
  | nil =>
      intro n idx acc
      simp [renderLoop, itemBlocks, concatAll, sAppend_nil]
  | cons it rest ih =>
      intro n idx acc
      cases n with
      | zero =>
          simp [renderLoop, itemBlocks, concatAll, sAppend_nil]
      | succ n =>
          by_cases hover : utf8Len (acc ++ renderItem cat idx it) > maxTotalSize
          · rw [renderLoop, if_pos hover]
            refine ⟨Nat.zero_le _, ?_, ?_, ?_⟩
            · simp [itemBlocks, concatAll, sAppend_nil]
            · intro h; cases h
            · intro _
              have : min (n + 1) (rest.length + 1) = min n rest.length + 1 :=
                Nat.succ_min_succ n rest.length
              simp [List.length_cons, this]
          · rw [renderLoop, if_neg hover]
            obtain ⟨h1, h2, h3, h4⟩ := ih n (idx + 1) (acc ++ renderItem cat idx it)
            have hmin : min (n + 1) ((it :: rest).length) = min n rest.length + 1 := by
              simp [List.length_cons, Nat.succ_min_succ]
            refine ⟨?_, ?_, ?_, ?_⟩
            · simp only [hmin]
              omega
            · simp only [List.take_succ_cons, itemBlocks, concatAll]
              rw [h2]
              simp [sAppend_assoc]
            · intro h
              have := h3 h
              simp only [hmin]
              omega
            · intro h
              have := h4 h
              simp only [hmin]
              omega

theorem renderLoop_bound (cat : ResultCategory) (items : List SearchResultItem) :
    ∀ (n idx : Nat) (acc : String),
      utf8Len (renderLoop cat items n idx acc).out ≤
        max (utf8Len acc) maxTotalSize + utf8Len truncationWarning := by
  induction items with
  | nil =>
      intro n idx acc
      simp [renderLoop]
      omega
  | cons it rest ih =>
      intro n idx acc
      cases n with
      | zero =>
          simp [renderLoop]
          omega
      | succ n =>
          by_cases hover : utf8Len (acc ++ renderItem cat idx it) > maxTotalSize
          · rw [renderLoop, if_pos hover]
            simp only [utf8Len_append]
            omega
          · rw [renderLoop, if_neg hover]
            have h := ih n (idx + 1) (acc ++ renderItem cat idx it)
            have hle : utf8Len (acc ++ renderItem cat idx it) ≤ maxTotalSize := by omega
            simp only []
            omega

theorem itemBlocks_get? (cat : ResultCategory) :
    ∀ (l : List SearchResultItem) (idx i : Nat),
      (itemBlocks cat l idx).get? i = (l.get? i).map (fun it => renderItem cat (idx + i) it) := by
  intro l
  induction l with
  | nil => intro idx i; simp [itemBlocks]
  | cons it rest ih =>
      intro idx i
      cases i with
      | zero => simp [itemBlocks]
      | succ i =>
          simp only [itemBlocks, List.get?_cons_succ]
          rw [ih (idx + 1) i]
          have : idx + 1 + i = idx + (i + 1) := by omega
          rw [this]

/-! ### Claim theorems: total size ceiling (C1) -/

/-- Claim C1 (amended): the formatted output can exceed the 80 KiB total
ceiling only by the sizes of the fixed-format header block (which echoes
the query and the upstream total verbatim), the section line, the trailing
truncation warning and the no-results notice; the item blocks themselves
can never push the output beyond the ceiling plus that overhead. -/
theorem sploitus_output_bound (q : String) (cat : ResultCategory) (lim : Int)
    (resp : SearchResultSet) :
    utf8Len (formatSploitusResults q cat lim resp) ≤
      maxTotalSize + utf8Len (sploitusHeader q cat resp.totalMatches)
        + utf8Len (sectionLine cat (effectiveLimit lim resp.items.length))
        + utf8Len truncationWarning + utf8Len (noResultsNotice cat) := by
  obtain ⟨items, total⟩ := resp
  cases items with
  | nil =>
      simp only [formatSploitusResults, sploitusRender, utf8Len_append]
      omega
  | cons it rest =>
      have h := renderLoop_bound cat (it :: rest) (effectiveLimit lim (it :: rest).length) 0
        (sploitusHeader q cat total ++ sectionLine cat (effectiveLimit lim (it :: rest).length))
      rw [utf8Len_append] at h
      simp only [formatSploitusResults, sploitusRender]
      omega

def hugeQuery : String := String.mk (List.replicate (80 * 1024 + 1) 'A')

/-- Claim C1 (counterexample): a request whose query alone is larger than
80 KiB produces output beyond the 80 KiB ceiling, because the header echoes
the query verbatim before any ceiling check applies. -/
theorem sploitus_total_cap_cex :
    80 * 1024 < utf8Len (formatSploitusResults hugeQuery ResultCategory.exploits 10 ⟨[], 0⟩) := by
  have hq : utf8Len hugeQuery = 80 * 1024 + 1 := utf8Len_replicateA _
  have h : formatSploitusResults hugeQuery ResultCategory.exploits 10 ⟨[], 0⟩ =
      sploitusHeader hugeQuery ResultCategory.exploits 0 ++
        noResultsNotice ResultCategory.exploits := rfl
  rw [h]
  have h2 : 80 * 1024 < utf8Len (sploitusHeader hugeQuery ResultCategory.exploits 0) := by
    simp only [sploitusHeader, utf8Len_append]
    omega
  rw [utf8Len_append]
  omega

/-! ### Claim theorems: effective limit resolution (C2) -/

/-- Claim C2: the effective limit equals `min(requestedLimit, len(items))`
for positive requests and `min(defaultSploitusLimit, len(items))` for
non-positive ones; in particular a request beyond the available count
silently clamps to the available count. -/
theorem effectiveLimit_min (r : Int) (n : Nat) :
    defaultSploitusLimit = 10 ∧
    (0 < r → effectiveLimit r n = min r.toNat n) ∧
    (r ≤ 0 → effectiveLimit r n = min defaultSploitusLimit n) ∧
    (0 < r → n ≤ r.toNat → effectiveLimit r n = n) := by
  refine ⟨rfl, ?_, ?_, ?_⟩
  · intro h
    rw [effectiveLimit, if_neg (by omega)]
  · intro h
    rw [effectiveLimit, if_pos h]
  · intro h hn
    rw [effectiveLimit, if_neg (by omega)]
    omega

theorem effectiveLimit_min_witness :
    effectiveLimit 5 3 = 3 ∧ effectiveLimit (-2) 30 = 10 ∧ effectiveLimit 100 30 = 30 :=
  ⟨(effectiveLimit_min 5 3).2.2.2 (by decide) (by decide),
   ((effectiveLimit_min (-2) 30).2.2.1 (by decide)).trans (by decide),
   (effectiveLimit_min 100 30).2.2.2 (by decide) (by decide)⟩

/-! ### Claim theorems: totality (C5) -/

/-- Claim C5: the formatter is a total function of its four arguments: for
every well-typed input, including empty item lists and absent optional
fields, it returns a string that begins with the report header (so the
query context is never dropped and no error value exists). -/
theorem sploitus_total_function (q : String) (cat : ResultCategory) (lim : Int)
    (resp : SearchResultSet) :
    ∃ tail, formatSploitusResults q cat lim resp =
      sploitusHeader q cat resp.totalMatches ++ tail := by
  obtain ⟨items, total⟩ := resp
  cases items with
  | nil => exact ⟨noResultsNotice cat, rfl⟩
  | cons it rest =>
      obtain ⟨-, h2, -, -⟩ := renderLoop_spec cat (it :: rest)
        (effectiveLimit lim (it :: rest).length) 0
        (sploitusHeader q cat total ++ sectionLine cat (effectiveLimit lim (it :: rest).length))
      exact ⟨_, by
        simp only [formatSploitusResults, sploitusRender, List.length_cons]
        simp only [List.length_cons] at h2
        rw [h2]
        simp only [sAppend_assoc]
        rfl⟩

/-! ### Claim theorems: empty results (C6) -/

/-- Claim C6: with an empty item list the output is exactly the header
block followed by the category-specific no-results notice: the echoed
query is present, no item is rendered, and neither an item section nor a
limit line is emitted. -/
theorem sploitus_empty_results (q : String) (cat : ResultCategory) (lim : Int) (total : Nat) :
    formatSploitusResults q cat lim ⟨[], total⟩ =
      sploitusHeader q cat total ++ noResultsNotice cat ∧
    (sploitusRender q cat lim ⟨[], total⟩).shown = 0 ∧
    (∃ a b, sploitusHeader q cat total = a ++ q ++ b) := by
  refine ⟨rfl, rfl, ?_⟩
  exact ⟨"# Sploitus Search Results\n\n**Query:** `",
    "`\n**Type:** " ++ categoryLabel cat ++ "\n**Total matches on Sploitus:** " ++
      Nat.repr total ++ "\n\n",
    by simp [sploitusHeader, sAppend_assoc]⟩

/-! ### Claim theorems: per-item body ceiling (C3) -/

theorem bodyText_update (it : SearchResultItem) (x : Option String) :
    ({ it with bodyText := x } : SearchResultItem).bodyText = x := rfl

theorem itemLead_update (cat : ResultCategory) (idx : Nat) (it : SearchResultItem)
    (x : Option String) :
    itemLead cat idx { it with bodyText := x } = itemLead cat idx it := by
  cases cat <;> rfl

/-- Claim C3 (amended): a body of exactly 50 KiB is rendered in full; a body
over 50 KiB is replaced by the fixed truncation notice and the rendered
block does not depend on the oversized text at all (so the formatter itself
never emits any part of it; a prefix of the oversized text can still occur
in the output when it coincides with other rendered content, such as a body
that begins with the notice text itself). -/
theorem sploitus_body_truncation (cat : ResultCategory) (idx : Nat)
    (it : SearchResultItem) (b : String) :
    (it.bodyText = some b → utf8Len b = maxSourceSize →
      renderItem cat idx it =
        itemLead cat idx it ++ ("**Source:**\n```\n" ++ b ++ "\n```\n") ++ "\n" ∧
      ∃ u v, renderItem cat idx it = u ++ b ++ v) ∧
    (it.bodyText = some b → maxSourceSize < utf8Len b →
      renderItem cat idx it = itemLead cat idx it ++ sourceNotice ++ "\n" ∧
      (∃ u v, renderItem cat idx it = u ++ sourceNotice ++ v) ∧
      (∀ b' : String, maxSourceSize < utf8Len b' →
        renderItem cat idx it = renderItem cat idx { it with bodyText := some b' })) := by
  constructor
  · intro hb hlen
    have hcond : ¬ utf8Len b > maxSourceSize := by omega
    have hr : renderItem cat idx it =
        itemLead cat idx it ++ ("**Source:**\n```\n" ++ b ++ "\n```\n") ++ "\n" := by
      simp only [renderItem, hb, bodySection]
      rw [if_neg hcond]
    refine ⟨hr, ⟨itemLead cat idx it ++ "**Source:**\n```\n", "\n```\n" ++ "\n", ?_⟩⟩
    rw [hr]
    simp only [sAppend_assoc]
  · intro hb hlen
    have hr : renderItem cat idx it = itemLead cat idx it ++ sourceNotice ++ "\n" := by
      simp only [renderItem, hb, bodySection]
      rw [if_pos hlen]
    refine ⟨hr, ⟨itemLead cat idx it, "\n", hr⟩, ?_⟩
    intro b' hb'
    have hr' : renderItem cat idx { it with bodyText := some b' } =
        itemLead cat idx it ++ sourceNotice ++ "\n" := by
      simp only [renderItem, bodyText_update, bodySection, itemLead_update]
      rw [if_pos hb']
    rw [hr, hr']

def bodyAtLimit : String := String.mk (List.replicate (50 * 1024) 'A')

def itemAtLimit : SearchResultItem :=
  ⟨"TEST-1", "Boundary", "https://example.com", "githubexploit",
    none, none, none, none, some bodyAtLimit⟩

theorem sploitus_body_truncation_witness :
    utf8Len bodyAtLimit = maxSourceSize ∧
    renderItem ResultCategory.exploits 0 itemAtLimit =
      itemLead ResultCategory.exploits 0 itemAtLimit ++
        ("**Source:**\n```\n" ++ bodyAtLimit ++ "\n```\n") ++ "\n" := by
  have hlen : utf8Len bodyAtLimit = maxSourceSize := utf8Len_replicateA (50 * 1024)
  exact ⟨hlen,
    ((sploitus_body_truncation ResultCategory.exploits 0 itemAtLimit bodyAtLimit).1 rfl hlen).1⟩

def cexBody : String := sourceNotice ++ String.mk (List.replicate (50 * 1024) 'A')

def cexItem : SearchResultItem :=
  ⟨"TEST-2", "Adversarial body", "https://example.com", "githubexploit",
    none, none, none, none, some cexBody⟩

/-- Claim C3 (counterexample): for an oversized body that begins with the
truncation notice text, a (52-byte) prefix of the oversized text does
appear in the rendered output, namely as the notice itself — so the claim
that no prefix of the oversized text appears anywhere is false as stated. -/
theorem sploitus_body_truncation_cex :
    (∃ t, cexBody = sourceNotice ++ t) ∧
    maxSourceSize < utf8Len cexBody ∧
    (∃ u v, renderItem ResultCategory.exploits 0 cexItem = u ++ sourceNotice ++ v) := by
  have h1 : utf8Len cexBody = utf8Len sourceNotice + 50 * 1024 := by
    show utf8Len (sourceNotice ++ String.mk (List.replicate (50 * 1024) 'A')) = _
    rw [utf8Len_append, utf8Len_replicateA]
  have h2 : 0 < utf8Len sourceNotice := by decide
  have hlen : maxSourceSize < utf8Len cexBody := by
    rw [h1]
    show 50 * 1024 < _
    omega
  refine ⟨⟨String.mk (List.replicate (50 * 1024) 'A'), rfl⟩, hlen,
    ⟨itemLead ResultCategory.exploits 0 cexItem, "\n", ?_⟩⟩
  simp only [renderItem, cexItem, bodySection]
  rw [if_pos hlen]

/-! ### Claim theorems: item count and whole blocks (C4) -/

/-- Claim C4: the number of rendered item blocks equals the effective limit
unless the total ceiling stops rendering early, in which case it is
strictly smaller and the truncation warning is appended; the output is the
header, the section line, a concatenation of whole item blocks and at most
one trailing warning. -/
theorem sploitus_item_count (q : String) (cat : ResultCategory) (lim : Int)
    (resp : SearchResultSet) (h : resp.items ≠ []) :
    (sploitusRender q cat lim resp).shown ≤ effectiveLimit lim resp.items.length ∧
    formatSploitusResults q cat lim resp =
      sploitusHeader q cat resp.totalMatches ++
        sectionLine cat (effectiveLimit lim resp.items.length) ++
        concatAll (itemBlocks cat (resp.items.take (sploitusRender q cat lim resp).shown) 0) ++
        (if (sploitusRender q cat lim resp).truncated then truncationWarning else "") ∧
    ((sploitusRender q cat lim resp).truncated = false →
      (sploitusRender q cat lim resp).shown = effectiveLimit lim resp.items.length) ∧
    ((sploitusRender q cat lim resp).truncated = true →
      (sploitusRender q cat lim resp).shown < effectiveLimit lim resp.items.length) := by
  obtain ⟨items, total⟩ := resp
  cases items with
  | nil => exact absurd rfl h
  | cons it rest =>
      obtain ⟨h1, h2, h3, h4⟩ := renderLoop_spec cat (it :: rest)
        (effectiveLimit lim (it :: rest).length) 0
        (sploitusHeader q cat total ++ sectionLine cat (effectiveLimit lim (it :: rest).length))
      have hle : effectiveLimit lim (it :: rest).length ≤ (it :: rest).length :=
        Nat.min_le_right _ _
      have hmin : min (effectiveLimit lim (it :: rest).length) (it :: rest).length =
          effectiveLimit lim (it :: rest).length := by omega
      rw [hmin] at h1 h3 h4
      exact ⟨h1, h2, h3, h4⟩

def sampleItem : SearchResultItem :=
  ⟨"TOOL-001", "Nmap Tool 1", "https://example.com/tool1", "kitploit",
    none, none, none, some "https://github.com/tool1", none⟩

def sampleSet : SearchResultSet := ⟨[sampleItem], 200⟩

theorem sploitus_item_count_witness :
    sampleSet.items ≠ [] ∧
    (sploitusRender "nmap" ResultCategory.tools 2 sampleSet).shown ≤
      effectiveLimit 2 sampleSet.items.length :=
  ⟨List.cons_ne_nil _ _,
   (sploitus_item_count "nmap" ResultCategory.tools 2 sampleSet (List.cons_ne_nil _ _)).1⟩

/-! ### Claim theorems: order preservation (C7) -/

/-- Claim C7: the rendered blocks are exactly the blocks of the first
`shown` input items in input order: the block at position `i` is the
rendering of the input item at index `i`, and it starts with the numbered
sub-header `i+1` followed by that item's title. -/
theorem sploitus_order_preserved (q : String) (cat : ResultCategory) (lim : Int)
    (resp : SearchResultSet) (h : resp.items ≠ []) :
    formatSploitusResults q cat lim resp =
      sploitusHeader q cat resp.totalMatches ++
        sectionLine cat (effectiveLimit lim resp.items.length) ++
        concatAll (itemBlocks cat (resp.items.take (sploitusRender q cat lim resp).shown) 0) ++
        (if (sploitusRender q cat lim resp).truncated then truncationWarning else "") ∧
    (∀ i, (itemBlocks cat (resp.items.take (sploitusRender q cat lim resp).shown) 0).get? i =
      ((resp.items.take (sploitusRender q cat lim resp).shown).get? i).map
        (fun it => renderItem cat i it)) ∧
    (∀ i it0, resp.items.get? i = some it0 →
      ∃ tail, renderItem cat i it0 =
        "### " ++ Nat.repr (i + 1) ++ ". " ++ it0.title ++ "\n" ++ tail) := by
  refine ⟨?_, ?_, ?_⟩
  · obtain ⟨items, total⟩ := resp
    cases items with
    | nil => exact absurd rfl h
    | cons it rest =>
        obtain ⟨-, h2, -, -⟩ := renderLoop_spec cat (it :: rest)
          (effectiveLimit lim (it :: rest).length) 0
          (sploitusHeader q cat total ++ sectionLine cat (effectiveLimit lim (it :: rest).length))
        exact h2
  · intro i
    have hb := itemBlocks_get? cat (resp.items.take (sploitusRender q cat lim resp).shown) 0 i
    simpa using hb
  · intro i it0 _
    refine ⟨urlLine it0.href ++ (fieldLines cat it0 ++ (bodySection it0.bodyText ++ "\n")), ?_⟩
    simp only [renderItem, itemLead, itemHeaderLine, sAppend_assoc]

theorem sploitus_order_preserved_witness :
    sampleSet.items ≠ [] ∧
    (∀ i it0, sampleSet.items.get? i = some it0 →
      ∃ tail, renderItem ResultCategory.tools i it0 =
        "### " ++ Nat.repr (i + 1) ++ ". " ++ it0.title ++ "\n" ++ tail) :=
  ⟨List.cons_ne_nil _ _,
   (sploitus_order_preserved "nmap" ResultCategory.tools 2 sampleSet
      (List.cons_ne_nil _ _)).2.2⟩

/-! ### Claim theorems: score rendering (C8) -/

/-- Claim C8: in exploits mode an absent score yields no score line at all
(the block equals the score-less rendering, not a zero or placeholder),
while a present score is embedded as its natural decimal representation;
in particular the values 9.8 and 7.5 render literally as `9.8` and `7.5`,
with no forced fixed-point rounding such as `9.80`. -/
theorem sploitus_score_rendering (idx : Nat) (it : SearchResultItem) :
    (it.score = none →
      renderItem ResultCategory.exploits idx it =
        itemHeaderLine idx it.title ++ urlLine it.href ++
          ("**Type:** " ++ it.kind ++ "\n") ++
          optLine "**Published:** " it.publishedDate ++
          optLine "**Language:** " it.language ++
          bodySection it.bodyText ++ "\n") ∧
    (∀ s : Rat, it.score = some s →
      ∃ u v, renderItem ResultCategory.exploits idx it =
        u ++ ("**CVSS Score:** " ++ scoreRepr s ++ "\n") ++ v) ∧
    scoreRepr (9.8 : Rat) = "9.8" ∧
    scoreRepr (7.5 : Rat) = "7.5" ∧
    scoreRepr (9.8 : Rat) ≠ "9.80" := by
  have h98 : (9.8 : Rat) = mkRat 98 10 := Rat.ofScientific_true_def
  have h75 : (7.5 : Rat) = mkRat 75 10 := Rat.ofScientific_true_def
  refine ⟨?_, ?_, by rw [h98]; decide, by rw [h75]; decide, by rw [h98]; decide⟩
  · intro hs
    simp only [renderItem, itemLead, fieldLines, hs, scoreLine]
    simp only [sNil_append, sAppend_assoc]
  · intro s hs
    refine ⟨itemHeaderLine idx it.title ++ urlLine it.href,
      ("**Type:** " ++ it.kind ++ "\n") ++ optLine "**Published:** " it.publishedDate ++
        optLine "**Language:** " it.language ++ bodySection it.bodyText ++ "\n", ?_⟩
    simp only [renderItem, itemLead, fieldLines, hs, scoreLine]
    simp only [sAppend_assoc]

def scoredItem : SearchResultItem :=
  ⟨"TEST-001", "Test Exploit 1", "https://example.com/exploit1", "githubexploit",
    some (9.8 : Rat), some "2026-01-15", some "python", none, none⟩

theorem sploitus_score_rendering_witness :
    scoreRepr (9.8 : Rat) = "9.8" ∧
    (∃ u v, renderItem ResultCategory.exploits 0 scoredItem =
      u ++ ("**CVSS Score:** " ++ scoreRepr (9.8 : Rat) ++ "\n") ++ v) :=
  ⟨(sploitus_score_rendering 0 scoredItem).2.2.1,
   (sploitus_score_rendering 0 scoredItem).2.1 (9.8 : Rat) rfl⟩

/-! ### Favorite-flows upsert (C9), embedded from the AddFavoriteFlow SQL query -/

/-- The `favoriteFlows` array produced by the `AddFavoriteFlow` upsert for
one user row: a missing row is created with `[flow_id]`; an existing row
keeps its array when it already contains `flow_id` (the `@>` containment
branch of the `CASE`) and appends `flow_id` (`||`) otherwise. -/
def addFavoriteRow (flowId : Int) : Option (List Int) → List Int
  | none => [flowId]
  | some favs => if flowId ∈ favs then favs else favs ++ [flowId]

/-- The `AddFavoriteFlow` upsert over the whole `user_preferences` table;
the unique constraint on `user_id` makes the table a map from user id to
the row's `favoriteFlows` array. -/
def addFavoriteFlow (uid flowId : Int) (t : Int → Option (List Int)) :
    Int → Option (List Int) :=
  fun u => if u = uid then some (addFavoriteRow flowId (t uid)) else t u

theorem mem_addFavoriteRow (flowId : Int) (st : Option (List Int)) :
    flowId ∈ addFavoriteRow flowId st := by
  cases st with
  | none => simp [addFavoriteRow]
  | some favs =>
      by_cases h : flowId ∈ favs
      · simp [addFavoriteRow, h]
      · simp [addFavoriteRow, h]

/-- Claim C9: `AddFavoriteFlow` is idempotent per `(user_id, flow_id)`: an
already-present flow id leaves the row unchanged, executing the upsert
twice equals executing it once, the multiplicity of `flow_id` after the
upsert is `max 1` of its multiplicity before (so the upsert never
introduces a duplicate of `flow_id`), and other users' rows are
untouched. -/
theorem addFavoriteFlow_idempotent (uid flowId : Int) (t : Int → Option (List Int)) :
    addFavoriteFlow uid flowId (addFavoriteFlow uid flowId t) = addFavoriteFlow uid flowId t ∧
    (∀ favs, t uid = some favs → flowId ∈ favs →
      addFavoriteFlow uid flowId t uid = some favs) ∧
    (∀ favs, List.count flowId (addFavoriteRow flowId (some favs)) =
      max 1 (List.count flowId favs)) ∧
    List.count flowId (addFavoriteRow flowId none) = 1 ∧
    (∀ u, u ≠ uid → addFavoriteFlow uid flowId t u = t u) := by
  refine ⟨?_, ?_, ?_, ?_, ?_⟩
  · have key : ∀ X : List Int, flowId ∈ X → addFavoriteRow flowId (some X) = X := by
      intro X hX
      simp [addFavoriteRow, hX]
    funext u
    by_cases hu : u = uid
    · subst hu
      have hm := mem_addFavoriteRow flowId (t u)
      simp [addFavoriteFlow, key _ hm]
    · simp [addFavoriteFlow, hu]
  · intro favs hf hmem
    simp [addFavoriteFlow, hf, addFavoriteRow, hmem]
  · intro favs
    by_cases h : flowId ∈ favs
    · have h1 : 0 < List.count flowId favs := List.count_pos_iff.mpr h
      simp only [addFavoriteRow, if_pos h]
      omega
    · have h0 : List.count flowId favs = 0 := List.count_eq_zero.mpr h
      have h1 : List.count flowId [flowId] = 1 := by simp
      simp only [addFavoriteRow, if_neg h, List.count_append]
      omega
  · simp [addFavoriteRow]
  · intro u hu
    simp [addFavoriteFlow, hu]

def favTable : Int → Option (List Int) := fun u => if u = 1 then some [7] else none

theorem addFavoriteFlow_idempotent_witness :
    addFavoriteFlow 1 7 (addFavoriteFlow 1 7 favTable) = addFavoriteFlow 1 7 favTable ∧
    addFavoriteFlow 1 7 favTable 1 = some [7] :=
  ⟨(addFavoriteFlow_idempotent 1 7 favTable).1,
   (addFavoriteFlow_idempotent 1 7 favTable).2.1 [7] (by simp [favTable]) (by simp)⟩

/-! ### Flow-service privilege gates (C10), embedded from flows.go -/

/-- Outcome of the initial phase of a flow-service handler: an early error
response, or the first stored-state access (a scoped database query,
reached only after the privilege check passes; every later database or
flow-controller call comes after this point). -/
inductive HandlerStep where
  | respondInvalid : HandlerStep
  | respondInvalidData : HandlerStep
  | respondNotPermitted : HandlerStep
  | queryDB : Bool → HandlerStep
deriving DecidableEq

/-- `FlowService.GetFlows` up to its first database access: query binding,
then the privilege check (`flows.admin` gives the unscoped handle,
`flows.view` the user-scoped one, otherwise not permitted). -/
def getFlowsGate (bindOk : Bool) (privs : List String) : HandlerStep :=
  if !bindOk then .respondInvalid
  else if "flows.admin" ∈ privs then .queryDB true
  else if "flows.view" ∈ privs then .queryDB false
  else .respondNotPermitted

/-- `FlowService.GetFlow` up to its first database access: flow-id parsing,
then the privilege check with `flows.view`. -/
def getFlowGate (parseOk : Bool) (privs : List String) : HandlerStep :=
  if !parseOk then .respondInvalid
  else if "flows.admin" ∈ privs then .queryDB true
  else if "flows.view" ∈ privs then .queryDB false
  else .respondNotPermitted

/-- `FlowService.PatchFlow` up to its first database or flow-controller
access: JSON binding, payload validation, flow-id parsing, then the
privilege check with `flows.edit`. -/
def patchFlowGate (bindOk validOk parseOk : Bool) (privs : List String) : HandlerStep :=
  if !bindOk then .respondInvalid
  else if !validOk then .respondInvalidData
  else if !parseOk then .respondInvalid
  else if "flows.admin" ∈ privs then .queryDB true
  else if "flows.edit" ∈ privs then .queryDB false
  else .respondNotPermitted

/-- `FlowService.DeleteFlow` up to its first database or flow-controller
access: flow-id parsing, then the privilege check with `flows.delete`. -/
def deleteFlowGate (parseOk : Bool) (privs : List String) : HandlerStep :=
  if !parseOk then .respondInvalid
  else if "flows.admin" ∈ privs then .queryDB true
  else if "flows.delete" ∈ privs then .queryDB false
  else .respondNotPermitted

/-- Claim C10 (amended): whenever the earlier request-decoding steps
succeed and the privilege list contains neither `flows.admin` nor the
operation-specific privilege, each flow-service handler answers with the
not-permitted error before reaching any database query or flow-controller
call (it never produces a `queryDB` step), leaving stored state
untouched. -/
theorem flows_priv_gate (privs : List String)
    (hadmin : "flows.admin" ∉ privs) :
    ("flows.view" ∉ privs →
      getFlowsGate true privs = HandlerStep.respondNotPermitted ∧
      getFlowGate true privs = HandlerStep.respondNotPermitted) ∧
    ("flows.edit" ∉ privs →
      patchFlowGate true true true privs = HandlerStep.respondNotPermitted) ∧
    ("flows.delete" ∉ privs →
      deleteFlowGate true privs = HandlerStep.respondNotPermitted) ∧
    (∀ a, HandlerStep.respondNotPermitted ≠ HandlerStep.queryDB a) := by
  refine ⟨?_, ?_, ?_, ?_⟩
  · intro h
    constructor
    · simp [getFlowsGate, hadmin, h]
    · simp [getFlowGate, hadmin, h]
  · intro h
    simp [patchFlowGate, hadmin, h]
  · intro h
    simp [deleteFlowGate, hadmin, h]
  · exact fun a h => HandlerStep.noConfusion h

/-- Claim C10 (counterexample): a request with an empty privilege list
whose query binding fails is answered with the invalid-request error, not
the not-permitted error, because the handlers bind and validate the
request before they check privileges. -/
theorem flows_priv_gate_cex :
    "flows.admin" ∉ ([] : List String) ∧
    "flows.view" ∉ ([] : List String) ∧
    getFlowsGate false [] = HandlerStep.respondInvalid ∧
    HandlerStep.respondInvalid ≠ HandlerStep.respondNotPermitted := by
  refine ⟨List.not_mem_nil _, List.not_mem_nil _, rfl, ?_⟩
  exact fun h => HandlerStep.noConfusion h

theorem flows_priv_gate_witness :
    getFlowsGate true ["tasks.view"] = HandlerStep.respondNotPermitted ∧
    getFlowGate true ["tasks.view"] = HandlerStep.respondNotPermitted ∧
    patchFlowGate true true true ["tasks.view"] = HandlerStep.respondNotPermitted ∧
    deleteFlowGate true ["tasks.view"] = HandlerStep.respondNotPermitted := by
  have h := flows_priv_gate ["tasks.view"] (by decide)
  exact ⟨(h.1 (by decide)).1, (h.1 (by decide)).2, h.2.1 (by decide), h.2.2.1 (by decide)⟩

end Pentagi
